import Mathlib

/-!
Shallow embedding of GQAdonis/transcribe_wav, src/main.rs.

The program reads recognition events from a cloud speech client, aggregates
word-level entries with speaker labels (the `recognized` callback,
main.rs lines 34-66), and after the session renders the collected raw
results to a Markdown file (main.rs lines 75-97).

JSON payloads are modelled by an inductive `Json`; numbers carry a rational
value, modelling the exact numeric payloads the program consumes (serde
`as_f64`).  Panicking `unwrap` calls are modelled by `Except Unit`, with
`Except.error ()` standing for a process abort.
-/

namespace TranscribeWav

/-- Model of a serde_json value.  Numbers are modelled exactly, by a
rational. -/
inductive Json where
  | null : Json
  | bool (b : Bool) : Json
  | num (q : ℚ) : Json
  | str (s : String) : Json
  | arr (xs : List Json) : Json
  | obj (fields : List (String × Json)) : Json

/-- `Value::get(key)` on a JSON value: field lookup on objects, `None`
otherwise. -/
def Json.get : Json → String → Option Json
  | .obj fields, k => fields.lookup k
  | _, _ => none

/-- `Value::as_str`. -/
def Json.as_str : Json → Option String
  | .str s => some s
  | _ => none

/-- `Value::as_f64`: succeeds exactly on numbers (modelled exactly). -/
def Json.as_f64 : Json → Option ℚ
  | .num q => some q
  | _ => none

/-- `Value::as_array`. -/
def Json.as_array : Json → Option (List Json)
  | .arr xs => some xs
  | _ => none

/-- The `speakers` HashMap (main.rs line 32), modelled as an association
list in insertion order; the map semantics only uses lookup and size. -/
abbrev Speakers := List (String × String)

/-- HashMap lookup. -/
def lookupSpeaker (sp : Speakers) (k : String) : Option String :=
  sp.lookup k

/-- main.rs lines 50-53: `speakers.entry(id).or_insert_with(|| format!("Speaker {}", len + 1))`.
A fresh id is appended with label "Speaker N" where N-1 is the number of
speakers registered before it; a known id keeps its label. -/
def speakerEntryOrInsert (sp : Speakers) (k : String) : Speakers × String :=
  match lookupSpeaker sp k with
  | some label => (sp, label)
  | none =>
      let label := "Speaker " ++ toString (sp.length + 1)
      (sp ++ [(k, label)], label)

/-- main.rs lines 48 and 83 (identical expression in both passes):
`word.get("SpeakerId").and_then(|s| s.as_str()).unwrap_or("Unknown")`. -/
def speakerKeyOf (word : Json) : String :=
  ((word.get "SpeakerId").bind Json.as_str).getD "Unknown"

/-- main.rs line 55 (and 87): `offset / 10_000_000.0`. -/
def startTimeOf (offset : ℚ) : ℚ :=
  offset / 10000000

/-- main.rs lines 56-58 (and 88-90): `(offset + duration) / 10_000_000.0`. -/
def endTimeOf (offset duration : ℚ) : ℚ :=
  (offset + duration) / 10000000

/-- Print a centisecond count as a fixed-point decimal with exactly two
decimal digits. -/
def centiToString (n : ℤ) : String :=
  let whole := Int.ediv n 100
  let frac := Int.emod n 100
  toString whole ++ "." ++ (if frac < 10 then "0" ++ toString frac else toString frac)

/-- Rust `{:.2}` fixed-point formatting of a (nonnegative) time value:
round to centiseconds, print with exactly two decimal digits. -/
def fmt2 (q : ℚ) : String :=
  centiToString ⌊q * 100 + 1 / 2⌋

/-- main.rs line 60 / line 92: the Markdown bullet line
`- **<speaker>** (<start>s - <end>s): <word>` with two-decimal timestamps. -/
def bulletLine (speaker : String) (startTime endTime : ℚ) (text : String) : String :=
  "- **" ++ speaker ++ "** (" ++ fmt2 startTime ++ "s - " ++ fmt2 endTime ++ "s): " ++ text

/-- main.rs lines 47-61, body of the inner word loop of the `recognized`
callback, for one word and the given registry key: register the speaker,
then unwrap Word, Offset and Duration (a missing or mistyped field aborts
the run), and emit the bullet line. -/
def processWordWithKey (sp : Speakers) (speakerId : String) (word : Json) :
    Except Unit (Speakers × String) :=
  match speakerEntryOrInsert sp speakerId with
  | (sp, speaker) =>
    match (word.get "Word").bind Json.as_str with
    | none => .error ()
    | some text =>
      match (word.get "Offset").bind Json.as_f64 with
      | none => .error ()
      | some offset =>
        match (word.get "Duration").bind Json.as_f64 with
        | none => .error ()
        | some duration =>
            .ok (sp, bulletLine speaker (startTimeOf offset) (endTimeOf offset duration) text)

/-- main.rs lines 47-61: one word of the callback, key taken from the
SpeakerId field with default "Unknown". -/
def processWord (sp : Speakers) (word : Json) : Except Unit (Speakers × String) :=
  processWordWithKey sp (speakerKeyOf word) word

/-- main.rs line 47: the inner `for word in sentence` loop of the callback. -/
def runWords : Speakers → List Json → Except Unit (Speakers × List String)
  | sp, [] => .ok (sp, [])
  | sp, w :: ws =>
      match processWord sp w with
      | .error e => .error e
      | .ok (sp, line) =>
          match runWords sp ws with
          | .error e => .error e
          | .ok (sp, lines) => .ok (sp, line :: lines)

/-- main.rs line 46: `nbest.iter().flat_map(|s| s.get("Words").and_then(|w| w.as_array()))`:
every hypothesis of NBest contributes its Words array (hypotheses without a
Words array are skipped). -/
def runSentences : Speakers → List Json → Except Unit (Speakers × List String)
  | sp, [] => .ok (sp, [])
  | sp, s :: rest =>
      match (s.get "Words").bind Json.as_array with
      | none => runSentences sp rest
      | some ws =>
          match runWords sp ws with
          | .error e => .error e
          | .ok (sp, l1) =>
              match runSentences sp rest with
              | .error e => .error e
              | .ok (sp, l2) => .ok (sp, l1 ++ l2)

/-- main.rs lines 45-63: the callback body for one parsed payload: if the
payload has an NBest array, process its hypotheses; otherwise do nothing. -/
def processEvent (sp : Speakers) (payload : Json) : Except Unit (Speakers × List String) :=
  match (payload.get "NBest").bind Json.as_array with
  | none => .ok (sp, [])
  | some nbest => runSentences sp nbest

/-- `event.result.reason` (main.rs line 38). -/
inductive ResultReason where
  | recognizedSpeech
  | other
deriving DecidableEq

/-- A `recognized` event as seen by the callback: its reason and its parsed
payload.  `priv_text = none` models a missing or unparsable payload text,
on which lines 39-40 unwrap and abort. -/
structure RecEvent where
  reason : ResultReason
  priv_text : Option Json

/-- The shared state of main.rs lines 31-32: the raw-result buffer and the
speaker registry. -/
structure AggState where
  transcript_data : List Json
  speakers : Speakers

/-- main.rs lines 37-65: the `recognized` callback for one event.  Events
whose reason is not RecognizedSpeech are ignored; otherwise the payload is
unwrapped, pushed onto the transcript buffer, and its words are processed. -/
def onRecognized (st : AggState) (e : RecEvent) : Except Unit (AggState × List String) :=
  match e.reason with
  | .other => .ok (st, [])
  | .recognizedSpeech =>
      match e.priv_text with
      | none => .error ()
      | some payload =>
          match processEvent st.speakers payload with
          | .error er => .error er
          | .ok (sp, lines) => .ok (⟨st.transcript_data ++ [payload], sp⟩, lines)

/-- The whole aggregation phase: the callback applied to each event in
arrival order, threading the shared state. -/
def runAggregator : AggState → List RecEvent → Except Unit (AggState × List String)
  | st, [] => .ok (st, [])
  | st, e :: es =>
      match onRecognized st e with
      | .error er => .error er
      | .ok (st, l1) =>
          match runAggregator st es with
          | .error er => .error er
          | .ok (st, l2) => .ok (st, l1 ++ l2)

/-- The empty state of main.rs lines 31-32. -/
def initialState : AggState := ⟨[], []⟩

/-- main.rs lines 82-93, body of the renderer word loop: resolve the
speaker id through the registry (`get(..).unwrap()`, aborting if absent),
unwrap Word, Offset and Duration, and emit the bullet line. -/
def renderWordWithKey (sp : Speakers) (speakerId : String) (word : Json) :
    Except Unit String :=
  match lookupSpeaker sp speakerId with
  | none => .error ()
  | some speaker =>
    match (word.get "Word").bind Json.as_str with
    | none => .error ()
    | some text =>
      match (word.get "Offset").bind Json.as_f64 with
      | none => .error ()
      | some offset =>
        match (word.get "Duration").bind Json.as_f64 with
        | none => .error ()
        | some duration =>
            .ok (bulletLine speaker (startTimeOf offset) (endTimeOf offset duration) text)

/-- main.rs lines 82-93: one word of the renderer, key from SpeakerId with
default "Unknown". -/
def renderWord (sp : Speakers) (word : Json) : Except Unit String :=
  renderWordWithKey sp (speakerKeyOf word) word

/-- main.rs line 82: the renderer `for word in words` loop. -/
def renderWords (sp : Speakers) : List Json → Except Unit (List String)
  | [] => .ok []
  | w :: ws =>
      match renderWord sp w with
      | .error e => .error e
      | .ok line =>
          match renderWords sp ws with
          | .error e => .error e
          | .ok lines => .ok (line :: lines)

/-- main.rs lines 80-95: the renderer `for sentence in nbest` loop;
hypotheses without a Words array emit nothing. -/
def renderSentences (sp : Speakers) : List Json → Except Unit (List String)
  | [] => .ok []
  | s :: rest =>
      match (s.get "Words").bind Json.as_array with
      | none => renderSentences sp rest
      | some ws =>
          match renderWords sp ws with
          | .error e => .error e
          | .ok l1 =>
              match renderSentences sp rest with
              | .error e => .error e
              | .ok l2 => .ok (l1 ++ l2)

/-- main.rs lines 79-96: render one stored raw result; results without an
NBest array emit nothing. -/
def renderResult (sp : Speakers) (result : Json) : Except Unit (List String) :=
  match (result.get "NBest").bind Json.as_array with
  | none => .ok []
  | some nbest => renderSentences sp nbest

/-- main.rs lines 77-97: the rendering pass over the collected transcript
buffer, in arrival order, producing the lines written to the output file. -/
def render (sp : Speakers) : List Json → Except Unit (List String)
  | [] => .ok []
  | r :: rest =>
      match renderResult sp r with
      | .error e => .error e
      | .ok l1 =>
          match render sp rest with
          | .error e => .error e
          | .ok l2 => .ok (l1 ++ l2)

/-- The main flow for a given event sequence: aggregate all events, then
render the collected buffer with the final registry (main.rs lines 34-97). -/
def mainOutput (events : List RecEvent) : Except Unit (List String) :=
  match runAggregator initialState events with
  | .error e => .error e
  | .ok (st, _) => render st.speakers st.transcript_data

/-- The registry interaction of the word loop in isolation (main.rs
lines 48-53): feed a sequence of speaker keys through
`speakerEntryOrInsert`, collecting the label returned for each. -/
def assignLabels : Speakers → List String → Speakers × List String
  | sp, [] => (sp, [])
  | sp, k :: rest =>
      let (sp, label) := speakerEntryOrInsert sp k
      let (sp, labels) := assignLabels sp rest
      (sp, label :: labels)

/-- The word list a stored result contributes, flattened over all
hypotheses: for each element of NBest, its Words array (or nothing). -/
def wordsOf (result : Json) : List Json :=
  match (result.get "NBest").bind Json.as_array with
  | none => []
  | some nbest => nbest.flatMap fun s => ((s.get "Words").bind Json.as_array).getD []

/-- Modelled from the spec (section 4.3 and section 8): render a flat word
sequence one word at a time, in the given order, with no reordering; used
to compare the renderer against the in-order traversal the spec demands. -/
def renderInOrder (sp : Speakers) : List Json → Except Unit (List String)
  | [] => .ok []
  | w :: ws =>
      match renderWord sp w with
      | .error e => .error e
      | .ok line =>
          match renderInOrder sp ws with
          | .error e => .error e
          | .ok lines => .ok (line :: lines)

/-- The observable startup actions of main.rs lines 17-75, in program
order. -/
inductive StartupAction where
  | cloudConfig
  | audioConfig
  | startRecognition
  | createOutputFile
  | fatal (msg : String)
deriving DecidableEq

/-- The four required environment variables, in the order main reads them
(main.rs lines 17-20). -/
def requiredEnvVars : List String :=
  ["AZURE_SPEECH_KEY", "AZURE_SERVICE_REGION", "SOUND_FILE", "OUTPUT_FILE"]

/-- main.rs lines 17-75: the sequence of observable startup actions for a
given environment.  Each `env::var(..).expect(..)` aborts with a fatal
message when the variable is unset; only after all four reads succeed does
main configure the cloud client (line 22), open the audio input (line 28),
start recognition (line 69) and create the output file (line 75). -/
def startupTrace (env : String → Option String) : List StartupAction :=
  match env "AZURE_SPEECH_KEY" with
  | none => [.fatal "AZURE_SPEECH_KEY must be set"]
  | some _ =>
    match env "AZURE_SERVICE_REGION" with
    | none => [.fatal "AZURE_SERVICE_REGION must be set"]
    | some _ =>
      match env "SOUND_FILE" with
      | none => [.fatal "SOUND_FILE must be set"]
      | some _ =>
        match env "OUTPUT_FILE" with
        | none => [.fatal "OUTPUT_FILE must be set"]
        | some _ =>
          [.cloudConfig, .audioConfig, .startRecognition, .createOutputFile]

/-- Registry extension: every association present in `sp` is still present
in `sp2`.  The registry only ever grows during a run, so the states it
passes through are related by this relation. -/
def SpeakersExt (sp sp2 : Speakers) : Prop :=
  ∀ k v, lookupSpeaker sp k = some v → lookupSpeaker sp2 k = some v

/-- Concrete word payload: {Word:"hello", SpeakerId:"g1", Offset:0,
Duration:10000000} (spec section 8, end-to-end scenario, event 1). -/
def helloWord : Json :=
  .obj [("Word", .str "hello"), ("SpeakerId", .str "g1"), ("Offset", .num 0),
        ("Duration", .num 10000000)]

/-- Concrete word payload: {Word:"world", SpeakerId:"g2", Offset:10000000,
Duration:10000000} (spec section 8, end-to-end scenario, event 2). -/
def worldWord : Json :=
  .obj [("Word", .str "world"), ("SpeakerId", .str "g2"), ("Offset", .num 10000000),
        ("Duration", .num 10000000)]

/-- Concrete word payload attributed to a second speaker, placed in a
second NBest hypothesis. -/
def altWord : Json :=
  .obj [("Word", .str "alt"), ("SpeakerId", .str "g2"), ("Offset", .num 0),
        ("Duration", .num 10000000)]

/-- Concrete word payload with Offset 50,000,000 and Duration 20,000,000
ticks (spec section 8, tick-conversion scenario). -/
def tickWord : Json :=
  .obj [("Word", .str "w"), ("SpeakerId", .str "s1"), ("Offset", .num 50000000),
        ("Duration", .num 20000000)]

/-- Concrete word payload with no SpeakerId field. -/
def noSpeakerWord : Json :=
  .obj [("Word", .str "hi"), ("Offset", .num 0), ("Duration", .num 10000000)]

/-- Concrete word payload with no fields at all. -/
def emptyWord : Json := .obj []

/-- Payload of the first end-to-end event: NBest[0].Words = [helloWord]. -/
def helloPayload : Json := .obj [("NBest", .arr [.obj [("Words", .arr [helloWord])]])]

/-- Payload of the second end-to-end event: NBest[0].Words = [worldWord]. -/
def worldPayload : Json := .obj [("NBest", .arr [.obj [("Words", .arr [worldWord])]])]

/-- Payload whose NBest array holds two hypotheses with one word each. -/
def twoHypPayload : Json :=
  .obj [("NBest", .arr [.obj [("Words", .arr [helloWord])], .obj [("Words", .arr [altWord])]])]

def helloEvent : RecEvent := ⟨.recognizedSpeech, some helloPayload⟩

def worldEvent : RecEvent := ⟨.recognizedSpeech, some worldPayload⟩

def twoHypEvent : RecEvent := ⟨.recognizedSpeech, some twoHypPayload⟩

theorem SpeakersExt.rfl {sp : Speakers} : SpeakersExt sp sp := fun _ _ h => h

theorem SpeakersExt.comp {a b c : Speakers} (h1 : SpeakersExt a b) (h2 : SpeakersExt b c) :
    SpeakersExt a c := fun k v h => h2 k v (h1 k v h)

theorem lookupSpeaker_append_of_some {sp : Speakers} {k v} (ys : Speakers)
    (h : lookupSpeaker sp k = some v) : lookupSpeaker (sp ++ ys) k = some v := by
  induction sp with
  | nil => simp [lookupSpeaker, List.lookup] at h
  | cons p rest ih =>
      obtain ⟨a, b⟩ := p
      simp only [List.cons_append, lookupSpeaker, List.lookup] at h ⊢
      cases hk : (k == a) with
      | true => simpa [hk] using h
      | false =>
          simp only [hk] at h ⊢
          exact ih h

theorem lookupSpeaker_append_of_none {sp : Speakers} {k} (ys : Speakers)
    (h : lookupSpeaker sp k = none) : lookupSpeaker (sp ++ ys) k = lookupSpeaker ys k := by
  induction sp with
  | nil => simp [lookupSpeaker]
  | cons p rest ih =>
      obtain ⟨a, b⟩ := p
      simp only [List.cons_append, lookupSpeaker, List.lookup] at h ⊢
      cases hk : (k == a) with
      | true => simp [hk] at h
      | false =>
          simp only [hk] at h ⊢
          exact ih h

/-- `speakerEntryOrInsert` only extends the registry, and afterwards the
queried key is bound to the returned label. -/
theorem speakerEntryOrInsert_spec (sp : Speakers) (k : String) :
    SpeakersExt sp (speakerEntryOrInsert sp k).1 ∧
    lookupSpeaker (speakerEntryOrInsert sp k).1 k = some (speakerEntryOrInsert sp k).2 := by
  unfold speakerEntryOrInsert
  cases h : lookupSpeaker sp k with
  | some v => exact ⟨SpeakersExt.rfl, h⟩
  | none =>
      refine ⟨fun k' v' h' => lookupSpeaker_append_of_some _ h', ?_⟩
      rw [lookupSpeaker_append_of_none _ h]
      simp [lookupSpeaker, List.lookup]

/-- A successful callback word step extends the registry, and afterwards
the renderer reproduces exactly the same line from any further-extended
registry. -/
theorem processWord_ok {sp sp' : Speakers} {w : Json} {line : String}
    (h : processWord sp w = .ok (sp', line)) :
    SpeakersExt sp sp' ∧
    ∀ sp2, SpeakersExt sp' sp2 → renderWord sp2 w = .ok line := by
  unfold processWord processWordWithKey at h
  obtain ⟨hext, hlook⟩ := speakerEntryOrInsert_spec sp (speakerKeyOf w)
  rcases he : speakerEntryOrInsert sp (speakerKeyOf w) with ⟨sp1, label⟩
  rw [he] at h hext hlook
  simp only at h hext hlook
  cases htext : (w.get "Word").bind Json.as_str with
  | none => rw [htext] at h; cases h
  | some text =>
      rw [htext] at h
      cases hoff : (w.get "Offset").bind Json.as_f64 with
      | none => rw [hoff] at h; cases h
      | some offset =>
          rw [hoff] at h
          cases hdur : (w.get "Duration").bind Json.as_f64 with
          | none => rw [hdur] at h; cases h
          | some duration =>
              rw [hdur] at h
              injection h with h
              injection h with h1 h2
              subst h1
              refine ⟨hext, fun sp2 hs2 => ?_⟩
              unfold renderWord renderWordWithKey
              rw [hs2 _ _ hlook, htext, hoff, hdur]
              exact congrArg Except.ok h2

end TranscribeWav

namespace TranscribeWav

theorem runWords_ok {sp sp' : Speakers} {ws : List Json} {lines : List String}
    (h : runWords sp ws = .ok (sp', lines)) :
    SpeakersExt sp sp' ∧
    ∀ sp2, SpeakersExt sp' sp2 → renderWords sp2 ws = .ok lines := by
  induction ws generalizing sp lines with
  | nil =>
      unfold runWords at h
      injection h with h
      injection h with h1 h2
      subst h1; subst h2
      exact ⟨SpeakersExt.rfl, fun sp2 _ => rfl⟩
  | cons w ws ih =>
      unfold runWords at h
      cases hp : processWord sp w with
      | error e => rw [hp] at h; cases h
      | ok p =>
          obtain ⟨sp1, line⟩ := p
          rw [hp] at h
          simp only at h
          cases hr : runWords sp1 ws with
          | error e => rw [hr] at h; cases h
          | ok p2 =>
              obtain ⟨spb, lns⟩ := p2
              rw [hr] at h
              injection h with h
              injection h with h1 h2
              subst h1
              obtain ⟨hext1, hrw⟩ := processWord_ok hp
              obtain ⟨hext2, hrr⟩ := ih hr
              refine ⟨hext1.comp hext2, fun sp3 hs3 => ?_⟩
              unfold renderWords
              rw [hrw sp3 (hext2.comp hs3), hrr sp3 hs3]
              exact congrArg Except.ok h2

theorem runSentences_ok {sp sp' : Speakers} {nbest : List Json} {lines : List String}
    (h : runSentences sp nbest = .ok (sp', lines)) :
    SpeakersExt sp sp' ∧
    ∀ sp2, SpeakersExt sp' sp2 → renderSentences sp2 nbest = .ok lines := by
  induction nbest generalizing sp lines with
  | nil =>
      unfold runSentences at h
      injection h with h
      injection h with h1 h2
      subst h1; subst h2
      exact ⟨SpeakersExt.rfl, fun sp2 _ => rfl⟩
  | cons s rest ih =>
      unfold runSentences at h
      cases hw : (s.get "Words").bind Json.as_array with
      | none =>
          rw [hw] at h
          obtain ⟨hext, hr⟩ := ih h
          refine ⟨hext, fun sp2 hs => ?_⟩
          unfold renderSentences
          rw [hw]
          exact hr sp2 hs
      | some ws =>
          rw [hw] at h
          simp only at h
          cases hrw : runWords sp ws with
          | error e => rw [hrw] at h; cases h
          | ok p =>
              obtain ⟨sp1, l1⟩ := p
              rw [hrw] at h
              simp only at h
              cases hrs : runSentences sp1 rest with
              | error e => rw [hrs] at h; cases h
              | ok p2 =>
                  obtain ⟨spb, l2⟩ := p2
                  rw [hrs] at h
                  injection h with h
                  injection h with h1 h2
                  subst h1
                  obtain ⟨hext1, hw1⟩ := runWords_ok hrw
                  obtain ⟨hext2, hw2⟩ := ih hrs
                  refine ⟨hext1.comp hext2, fun sp3 hs3 => ?_⟩
                  unfold renderSentences
                  rw [hw]
                  simp only
                  rw [hw1 sp3 (hext2.comp hs3), hw2 sp3 hs3]
                  exact congrArg Except.ok h2

theorem processEvent_ok {sp sp' : Speakers} {payload : Json} {lines : List String}
    (h : processEvent sp payload = .ok (sp', lines)) :
    SpeakersExt sp sp' ∧
    ∀ sp2, SpeakersExt sp' sp2 → renderResult sp2 payload = .ok lines := by
  unfold processEvent at h
  cases hn : (payload.get "NBest").bind Json.as_array with
  | none =>
      rw [hn] at h
      injection h with h
      injection h with h1 h2
      subst h1; subst h2
      refine ⟨SpeakersExt.rfl, fun sp2 _ => ?_⟩
      unfold renderResult
      rw [hn]
  | some nbest =>
      rw [hn] at h
      obtain ⟨hext, hr⟩ := runSentences_ok h
      refine ⟨hext, fun sp2 hs => ?_⟩
      unfold renderResult
      rw [hn]
      exact hr sp2 hs

theorem onRecognized_ok {st st' : AggState} {e : RecEvent} {lines : List String}
    (h : onRecognized st e = .ok (st', lines)) :
    SpeakersExt st.speakers st'.speakers ∧
    ∃ new, st'.transcript_data = st.transcript_data ++ new ∧
      ∀ sp2, SpeakersExt st'.speakers sp2 → render sp2 new = .ok lines := by
  unfold onRecognized at h
  cases e with
  | mk reason priv_text =>
    cases reason with
    | other =>
        injection h with h
        injection h with h1 h2
        subst h1; subst h2
        exact ⟨SpeakersExt.rfl, [], by simp, fun sp2 _ => rfl⟩
    | recognizedSpeech =>
        cases priv_text with
        | none => cases h
        | some payload =>
            simp only at h
            cases hp : processEvent st.speakers payload with
            | error er => rw [hp] at h; cases h
            | ok p =>
                obtain ⟨sp1, l1⟩ := p
                rw [hp] at h
                injection h with h
                injection h with h1 h2
                subst h2
                obtain ⟨hext, hr⟩ := processEvent_ok hp
                have hsp : st'.speakers = sp1 := by rw [← h1]
                have htd : st'.transcript_data = st.transcript_data ++ [payload] := by rw [← h1]
                refine ⟨by rw [hsp]; exact hext, [payload], htd, fun sp2 hs => ?_⟩
                unfold render
                rw [hr sp2 (by rw [← hsp]; exact hs)]
                simp [render]

theorem render_append {sp : Speakers} {xs ys : List Json} {a b : List String}
    (hx : render sp xs = .ok a) (hy : render sp ys = .ok b) :
    render sp (xs ++ ys) = .ok (a ++ b) := by
  induction xs generalizing a with
  | nil =>
      unfold render at hx
      injection hx with hx
      subst hx
      simpa using hy
  | cons r rest ih =>
      rw [List.cons_append]
      unfold render at hx ⊢
      cases hr : renderResult sp r with
      | error e => rw [hr] at hx; cases hx
      | ok l1 =>
          rw [hr] at hx
          simp only at hx
          cases hrest : render sp rest with
          | error e => rw [hrest] at hx; cases hx
          | ok l2 =>
              rw [hrest] at hx
              injection hx with hx
              subst hx
              rw [ih hrest]
              exact congrArg Except.ok (List.append_assoc l1 l2 b).symm

theorem runAggregator_ok {st st' : AggState} {evs : List RecEvent} {lines : List String}
    (h : runAggregator st evs = .ok (st', lines)) :
    SpeakersExt st.speakers st'.speakers ∧
    ∃ new, st'.transcript_data = st.transcript_data ++ new ∧
      ∀ sp2, SpeakersExt st'.speakers sp2 → render sp2 new = .ok lines := by
  induction evs generalizing st lines with
  | nil =>
      unfold runAggregator at h
      injection h with h
      injection h with h1 h2
      subst h1; subst h2
      exact ⟨SpeakersExt.rfl, [], by simp, fun sp2 _ => rfl⟩
  | cons e es ih =>
      unfold runAggregator at h
      cases ho : onRecognized st e with
      | error er => rw [ho] at h; cases h
      | ok p =>
          obtain ⟨st1, l1⟩ := p
          rw [ho] at h
          simp only at h
          cases hr : runAggregator st1 es with
          | error er => rw [hr] at h; cases h
          | ok p2 =>
              obtain ⟨st2, l2⟩ := p2
              rw [hr] at h
              injection h with h
              injection h with h1 h2
              subst h1
              obtain ⟨hext1, new1, htd1, hr1⟩ := onRecognized_ok ho
              obtain ⟨hext2, new2, htd2, hr2⟩ := ih hr
              refine ⟨hext1.comp hext2, new1 ++ new2, ?_, fun sp2 hs => ?_⟩
              · rw [htd2, htd1, List.append_assoc]
              · rw [← h2]
                exact render_append (hr1 sp2 (hext2.comp hs)) (hr2 sp2 hs)

/-- Evaluate `fmt2` once the centisecond floor is known. -/
theorem fmt2_eval (q : ℚ) (n : ℤ) (h1 : (n : ℚ) ≤ q * 100 + 1 / 2)
    (h2 : q * 100 + 1 / 2 < n + 1) : fmt2 q = centiToString n := by
  unfold fmt2
  rw [Int.floor_eq_iff.mpr ⟨h1, h2⟩]

/-- The renderer word loop and the in-order flat traversal agree on any
word list. -/
theorem renderWords_eq_inOrder (sp : Speakers) (ws : List Json) :
    renderWords sp ws = renderInOrder sp ws := by
  induction ws with
  | nil => rfl
  | cons w ws ih =>
      simp only [renderWords, renderInOrder]
      rw [ih]

theorem renderInOrder_append (sp : Speakers) (xs ys : List Json) :
    renderInOrder sp (xs ++ ys) =
      match renderInOrder sp xs with
      | .error e => .error e
      | .ok l1 =>
          match renderInOrder sp ys with
          | .error e => .error e
          | .ok l2 => .ok (l1 ++ l2) := by
  induction xs with
  | nil =>
      simp only [List.nil_append, renderInOrder]
      cases renderInOrder sp ys with
      | error e => rfl
      | ok l2 => rfl
  | cons w xs ih =>
      rw [List.cons_append]
      simp only [renderInOrder]
      rw [ih]
      cases renderWord sp w with
      | error e => rfl
      | ok line =>
          cases renderInOrder sp xs with
          | error e => rfl
          | ok l1 =>
              cases renderInOrder sp ys with
              | error e => rfl
              | ok l2 => simp

/-- The renderer sentence loop is the in-order traversal of the
concatenation of the hypotheses' word arrays. -/
theorem renderSentences_eq_inOrder (sp : Speakers) (nbest : List Json) :
    renderSentences sp nbest =
      renderInOrder sp (nbest.flatMap fun s => ((s.get "Words").bind Json.as_array).getD []) := by
  induction nbest with
  | nil => rfl
  | cons s rest ih =>
      cases hw : (s.get "Words").bind Json.as_array with
      | none =>
          simp only [renderSentences, hw, List.flatMap_cons, Option.getD_none, List.nil_append]
          exact ih
      | some ws =>
          simp only [renderSentences, hw, List.flatMap_cons, Option.getD_some]
          rw [renderInOrder_append, ← ih, ← renderWords_eq_inOrder]

/-- The renderer result step is the in-order traversal of the result's
flattened word list. -/
theorem renderResult_eq_inOrder (sp : Speakers) (r : Json) :
    renderResult sp r = renderInOrder sp (wordsOf r) := by
  unfold renderResult wordsOf
  cases hn : (r.get "NBest").bind Json.as_array with
  | none => rfl
  | some nbest => exact renderSentences_eq_inOrder sp nbest

/-- The whole rendering pass is the in-order traversal of the buffer's
flattened word sequence. -/
theorem render_eq_inOrder (sp : Speakers) (buf : List Json) :
    render sp buf = renderInOrder sp (buf.flatMap wordsOf) := by
  induction buf with
  | nil => rfl
  | cons r rest ih =>
      simp only [render, List.flatMap_cons]
      rw [renderInOrder_append, ← ih, ← renderResult_eq_inOrder]
theorem runWords_append (sp : Speakers) (xs ys : List Json) :
    runWords sp (xs ++ ys) =
      match runWords sp xs with
      | .error e => .error e
      | .ok (sp1, l1) =>
          match runWords sp1 ys with
          | .error e => .error e
          | .ok (sp2, l2) => .ok (sp2, l1 ++ l2) := by
  induction xs generalizing sp with
  | nil =>
      simp only [List.nil_append, runWords]
      cases runWords sp ys with
      | error e => rfl
      | ok p => rfl
  | cons w xs ih =>
      rw [List.cons_append]
      simp only [runWords]
      cases processWord sp w with
      | error e => rfl
      | ok p =>
          obtain ⟨sp1, line⟩ := p
          simp only
          rw [ih sp1]
          cases runWords sp1 xs with
          | error e => rfl
          | ok p2 =>
              obtain ⟨sp2, l1⟩ := p2
              simp only
              cases runWords sp2 ys with
              | error e => rfl
              | ok p3 =>
                  obtain ⟨sp3, l2⟩ := p3
                  simp

/-- The callback sentence loop processes exactly the concatenation of all
hypotheses' word arrays, in order. -/
theorem runSentences_eq_flat (sp : Speakers) (nbest : List Json) :
    runSentences sp nbest =
      runWords sp (nbest.flatMap fun s => ((s.get "Words").bind Json.as_array).getD []) := by
  induction nbest generalizing sp with
  | nil => rfl
  | cons s rest ih =>
      cases hw : (s.get "Words").bind Json.as_array with
      | none =>
          simp only [runSentences, hw, List.flatMap_cons, Option.getD_none, List.nil_append]
          exact ih sp
      | some ws =>
          simp only [runSentences, hw, List.flatMap_cons, Option.getD_some]
          rw [runWords_append]
          cases runWords sp ws with
          | error e => rfl
          | ok p =>
              obtain ⟨sp1, l1⟩ := p
              simp only
              rw [ih sp1]

theorem assignLabels_preserves {sp : Speakers} {k v : String} (ids : List String)
    (h : lookupSpeaker sp k = some v) :
    lookupSpeaker (assignLabels sp ids).1 k = some v := by
  induction ids generalizing sp with
  | nil => exact h
  | cons i rest ih =>
      simp only [assignLabels]
      rcases he : speakerEntryOrInsert sp i with ⟨sp1, label⟩
      obtain ⟨hext, -⟩ := speakerEntryOrInsert_spec sp i
      rw [he] at hext
      rcases ha : assignLabels sp1 rest with ⟨sp2, labels⟩
      have := @ih sp1 (hext k v h)
      rw [ha] at this
      exact this
theorem assignLabels_ABAC (A B C : String) (hAB : A ≠ B) (hAC : A ≠ C) (hBC : B ≠ C) :
    (assignLabels [] [A, B, A, C]).2 = ["Speaker 1", "Speaker 2", "Speaker 1", "Speaker 3"] := by
  have hBA : (B == A) = false := beq_eq_false_iff_ne.mpr (Ne.symm hAB)
  have hCA : (C == A) = false := beq_eq_false_iff_ne.mpr (Ne.symm hAC)
  have hCB : (C == B) = false := beq_eq_false_iff_ne.mpr (Ne.symm hBC)
  have hAA : (A == A) = true := beq_self_eq_true A
  simp only [assignLabels, speakerEntryOrInsert, lookupSpeaker, List.lookup, hBA, hCA, hCB, hAA,
    List.nil_append, List.cons_append, List.length_nil, List.length_cons, List.length_append,
    List.append_nil]
  rfl

theorem processWord_error {sp : Speakers} {w : Json}
    (h : (w.get "Word").bind Json.as_str = none ∨ (w.get "Offset").bind Json.as_f64 = none ∨
         (w.get "Duration").bind Json.as_f64 = none) :
    processWord sp w = .error () := by
  unfold processWord processWordWithKey
  rcases he : speakerEntryOrInsert sp (speakerKeyOf w) with ⟨sp1, label⟩
  cases htext : (w.get "Word").bind Json.as_str with
  | none => rfl
  | some text =>
      cases hoff : (w.get "Offset").bind Json.as_f64 with
      | none => rfl
      | some offset =>
          cases hdur : (w.get "Duration").bind Json.as_f64 with
          | none => rfl
          | some duration =>
              rcases h with h | h | h
              · rw [htext] at h; exact Option.noConfusion h
              · rw [hoff] at h; exact Option.noConfusion h
              · rw [hdur] at h; exact Option.noConfusion h

theorem runWords_cons_error {sp : Speakers} {w : Json} (ws : List Json)
    (h : processWord sp w = .error ()) :
    runWords sp (w :: ws) = .error () := by
  simp only [runWords, h]

theorem startup_missing (env : String → Option String) (v : String)
    (hv : v ∈ requiredEnvVars) (h : env v = none) :
    StartupAction.cloudConfig ∉ startupTrace env ∧
    StartupAction.startRecognition ∉ startupTrace env ∧
    StartupAction.createOutputFile ∉ startupTrace env ∧
    ∃ msg, StartupAction.fatal msg ∈ startupTrace env := by
  have hv2 : v = "AZURE_SPEECH_KEY" ∨ v = "AZURE_SERVICE_REGION" ∨ v = "SOUND_FILE" ∨
      v = "OUTPUT_FILE" := by simpa [requiredEnvVars] using hv
  unfold startupTrace
  rcases hv2 with rfl | rfl | rfl | rfl
  · rw [h]
    exact ⟨by simp, by simp, by simp, "AZURE_SPEECH_KEY must be set", by simp⟩
  · cases h1 : env "AZURE_SPEECH_KEY" with
    | none => exact ⟨by simp, by simp, by simp, "AZURE_SPEECH_KEY must be set", by simp⟩
    | some k1 =>
        rw [h]
        exact ⟨by simp, by simp, by simp, "AZURE_SERVICE_REGION must be set", by simp⟩
  · cases h1 : env "AZURE_SPEECH_KEY" with
    | none => exact ⟨by simp, by simp, by simp, "AZURE_SPEECH_KEY must be set", by simp⟩
    | some k1 =>
        cases h2 : env "AZURE_SERVICE_REGION" with
        | none => exact ⟨by simp, by simp, by simp, "AZURE_SERVICE_REGION must be set", by simp⟩
        | some k2 =>
            rw [h]
            exact ⟨by simp, by simp, by simp, "SOUND_FILE must be set", by simp⟩
  · cases h1 : env "AZURE_SPEECH_KEY" with
    | none => exact ⟨by simp, by simp, by simp, "AZURE_SPEECH_KEY must be set", by simp⟩
    | some k1 =>
        cases h2 : env "AZURE_SERVICE_REGION" with
        | none => exact ⟨by simp, by simp, by simp, "AZURE_SERVICE_REGION must be set", by simp⟩
        | some k2 =>
            cases h3 : env "SOUND_FILE" with
            | none => exact ⟨by simp, by simp, by simp, "SOUND_FILE must be set", by simp⟩
            | some k3 =>
                rw [h]
                exact ⟨by simp, by simp, by simp, "OUTPUT_FILE must be set", by simp⟩

theorem fmt2_start0 : fmt2 (startTimeOf 0) = "0.00" := by
  rw [fmt2_eval _ 0 (by norm_num [startTimeOf]) (by norm_num [startTimeOf])]
  rfl

theorem fmt2_end0_1e7 : fmt2 (endTimeOf 0 10000000) = "1.00" := by
  rw [fmt2_eval _ 100 (by norm_num [endTimeOf]) (by norm_num [endTimeOf])]
  rfl

theorem fmt2_start1e7 : fmt2 (startTimeOf 10000000) = "1.00" := by
  rw [fmt2_eval _ 100 (by norm_num [startTimeOf]) (by norm_num [startTimeOf])]
  rfl

theorem fmt2_end1e7_1e7 : fmt2 (endTimeOf 10000000 10000000) = "2.00" := by
  rw [fmt2_eval _ 200 (by norm_num [endTimeOf]) (by norm_num [endTimeOf])]
  rfl

theorem fmt2_start5e7 : fmt2 (startTimeOf 50000000) = "5.00" := by
  rw [fmt2_eval _ 500 (by norm_num [startTimeOf]) (by norm_num [startTimeOf])]
  rfl

theorem fmt2_end5e7_2e7 : fmt2 (endTimeOf 50000000 20000000) = "7.00" := by
  rw [fmt2_eval _ 700 (by norm_num [endTimeOf]) (by norm_num [endTimeOf])]
  rfl

theorem bullet_hello :
    bulletLine "Speaker 1" (startTimeOf 0) (endTimeOf 0 10000000) "hello" =
      "- **Speaker 1** (0.00s - 1.00s): hello" := by
  unfold bulletLine
  rw [fmt2_start0, fmt2_end0_1e7]
  rfl

theorem bullet_world :
    bulletLine "Speaker 2" (startTimeOf 10000000) (endTimeOf 10000000 10000000) "world" =
      "- **Speaker 2** (1.00s - 2.00s): world" := by
  unfold bulletLine
  rw [fmt2_start1e7, fmt2_end1e7_1e7]
  rfl

theorem bullet_alt :
    bulletLine "Speaker 2" (startTimeOf 0) (endTimeOf 0 10000000) "alt" =
      "- **Speaker 2** (0.00s - 1.00s): alt" := by
  unfold bulletLine
  rw [fmt2_start0, fmt2_end0_1e7]
  rfl

theorem bullet_tick :
    bulletLine "Speaker 1" (startTimeOf 50000000) (endTimeOf 50000000 20000000) "w" =
      "- **Speaker 1** (5.00s - 7.00s): w" := by
  unfold bulletLine
  rw [fmt2_start5e7, fmt2_end5e7_2e7]
  rfl

theorem speakerEntryOrInsert_stable {sp : Speakers} {k v : String}
    (h : lookupSpeaker sp k = some v) : (speakerEntryOrInsert sp k).2 = v := by
  unfold speakerEntryOrInsert
  rw [h]
/-- C1: speaker labels are assigned in first-seen order and are stable:
processing speaker ids in order [A, B, A, C] (A, B, C distinct) through
the registry yields labels "Speaker 1", "Speaker 2", "Speaker 1",
"Speaker 3"; an id already bound keeps its label under any further
assignments, and a repeated registry access returns the bound label. -/
theorem c1_labels_first_seen_stable (A B C : String)
    (hAB : A ≠ B) (hAC : A ≠ C) (hBC : B ≠ C) :
    (assignLabels [] [A, B, A, C]).2 = ["Speaker 1", "Speaker 2", "Speaker 1", "Speaker 3"] ∧
    (∀ (sp : Speakers) (k v : String) (ids : List String),
      lookupSpeaker sp k = some v → lookupSpeaker (assignLabels sp ids).1 k = some v) ∧
    (∀ (sp : Speakers) (k v : String),
      lookupSpeaker sp k = some v → (speakerEntryOrInsert sp k).2 = v) :=
  ⟨assignLabels_ABAC A B C hAB hAC hBC,
   fun _ _ _ ids h => assignLabels_preserves ids h,
   fun _ _ _ h => speakerEntryOrInsert_stable h⟩

/-- C1 witness at speaker ids "a", "b", "c". -/
theorem c1_witness :
    (assignLabels [] ["a", "b", "a", "c"]).2 =
        ["Speaker 1", "Speaker 2", "Speaker 1", "Speaker 3"] ∧
    (∀ (sp : Speakers) (k v : String) (ids : List String),
      lookupSpeaker sp k = some v → lookupSpeaker (assignLabels sp ids).1 k = some v) ∧
    (∀ (sp : Speakers) (k v : String),
      lookupSpeaker sp k = some v → (speakerEntryOrInsert sp k).2 = v) :=
  c1_labels_first_seen_stable "a" "b" "c" (by decide) (by decide) (by decide)

/-- C2: feeding the two end-to-end events produces exactly the two
expected Markdown bullet lines, in order. -/
theorem c2_end_to_end :
    mainOutput [helloEvent, worldEvent] =
      .ok ["- **Speaker 1** (0.00s - 1.00s): hello",
           "- **Speaker 2** (1.00s - 2.00s): world"] := by
  have h : mainOutput [helloEvent, worldEvent] =
      .ok [bulletLine "Speaker 1" (startTimeOf 0) (endTimeOf 0 10000000) "hello",
           bulletLine "Speaker 2" (startTimeOf 10000000) (endTimeOf 10000000 10000000) "world"] :=
    rfl
  rw [h, bullet_hello, bullet_world]

/-- C3: start time is Offset / 10,000,000 and end time is
(Offset + Duration) / 10,000,000; for Offset 50,000,000 and Duration
20,000,000 ticks the rendered times are 5.00s and 7.00s, as in the
program's own word-processing step. -/
theorem c3_tick_conversion :
    (∀ offset duration : ℚ, startTimeOf offset = offset / 10000000 ∧
        endTimeOf offset duration = (offset + duration) / 10000000) ∧
    fmt2 (startTimeOf 50000000) = "5.00" ∧
    fmt2 (endTimeOf 50000000 20000000) = "7.00" ∧
    processWord [] tickWord = .ok ([("s1", "Speaker 1")], "- **Speaker 1** (5.00s - 7.00s): w") := by
  refine ⟨fun o d => ⟨rfl, rfl⟩, fmt2_start5e7, fmt2_end5e7_2e7, ?_⟩
  have h : processWord [] tickWord =
      .ok ([("s1", "Speaker 1")],
           bulletLine "Speaker 1" (startTimeOf 50000000) (endTimeOf 50000000 20000000) "w") := rfl
  rw [h, bullet_tick]

/-- C4 counterexample: the claim says words of hypotheses after the first
are not processed; but on an event with two NBest hypotheses the code
registers the second hypothesis' speaker ("g2" gets "Speaker 2") and
emits a bullet line for its word ("alt"). -/
theorem c4_counterexample :
    (runAggregator initialState [twoHypEvent]).map
        (fun p => (lookupSpeaker p.1.speakers "g2", p.2.length)) = .ok (some "Speaker 2", 2) ∧
    mainOutput [twoHypEvent] =
      .ok ["- **Speaker 1** (0.00s - 1.00s): hello",
           "- **Speaker 2** (0.00s - 1.00s): alt"] := by
  refine ⟨rfl, ?_⟩
  have h : mainOutput [twoHypEvent] =
      .ok [bulletLine "Speaker 1" (startTimeOf 0) (endTimeOf 0 10000000) "hello",
           bulletLine "Speaker 2" (startTimeOf 0) (endTimeOf 0 10000000) "alt"] := rfl
  rw [h, bullet_hello, bullet_alt]

/-- C4 amended: the aggregator processes the words of every hypothesis in
the NBest array, in order - the sentence loop equals the word loop run on
the concatenation of all hypotheses' word arrays. -/
theorem c4_amended_all_hypotheses (sp : Speakers) (nbest : List Json) :
    runSentences sp nbest =
      runWords sp (nbest.flatMap fun s => ((s.get "Words").bind Json.as_array).getD []) :=
  runSentences_eq_flat sp nbest

/-- C5: the renderer emits words in arrival order of events and document
order within each event: the rendering pass equals the in-order flat
traversal of the buffer's word sequence, with no reordering. -/
theorem c5_order_preserved (sp : Speakers) (buf : List Json) :
    render sp buf = renderInOrder sp (buf.flatMap wordsOf) :=
  render_eq_inOrder sp buf

/-- C6: a word with no SpeakerId string resolves its speaker through the
registry entry for key "Unknown", in both the aggregation pass and the
rendering pass. -/
theorem c6_missing_speaker_id (w : Json) (sp sp2 : Speakers)
    (h : (w.get "SpeakerId").bind Json.as_str = none) :
    speakerKeyOf w = "Unknown" ∧
    processWord sp w = processWordWithKey sp "Unknown" w ∧
    renderWord sp2 w = renderWordWithKey sp2 "Unknown" w := by
  have hk : speakerKeyOf w = "Unknown" := by
    unfold speakerKeyOf
    rw [h]
    rfl
  exact ⟨hk, by unfold processWord; rw [hk], by unfold renderWord; rw [hk]⟩

/-- C6 witness at a concrete word lacking the SpeakerId field. -/
theorem c6_witness :
    (noSpeakerWord.get "SpeakerId").bind Json.as_str = none ∧
    (speakerKeyOf noSpeakerWord = "Unknown" ∧
     processWord [] noSpeakerWord = processWordWithKey [] "Unknown" noSpeakerWord ∧
     renderWord [] noSpeakerWord = renderWordWithKey [] "Unknown" noSpeakerWord) :=
  ⟨rfl, c6_missing_speaker_id noSpeakerWord [] [] rfl⟩

/-- C7: rendering is deterministic and idempotent: the output is a
function of the buffer and registry alone, so equal inputs give
byte-identical output on any two runs. -/
theorem c7_render_deterministic (sp sp2 : Speakers) (buf buf2 : List Json)
    (h1 : sp = sp2) (h2 : buf = buf2) :
    render sp buf = render sp2 buf2 := by
  rw [h1, h2]

/-- C7 witness at a concrete registry and buffer. -/
theorem c7_witness :
    ([("g1", "Speaker 1")] : Speakers) = [("g1", "Speaker 1")] ∧
    ([helloPayload] : List Json) = [helloPayload] ∧
    render [("g1", "Speaker 1")] [helloPayload] = render [("g1", "Speaker 1")] [helloPayload] :=
  ⟨rfl, rfl, c7_render_deterministic _ _ _ _ rfl rfl⟩

/-- C8: a word lacking Word, Offset or Duration (or with a wrong type
there) is fatal: the word step aborts, and the word loop aborts with it
instead of skipping the word and continuing. -/
theorem c8_missing_field_fatal (sp : Speakers) (w : Json) (ws : List Json)
    (h : (w.get "Word").bind Json.as_str = none ∨
         (w.get "Offset").bind Json.as_f64 = none ∨
         (w.get "Duration").bind Json.as_f64 = none) :
    processWord sp w = .error () ∧ runWords sp (w :: ws) = .error () := by
  have hp := @processWord_error sp w h
  exact ⟨hp, runWords_cons_error ws hp⟩

/-- C8 witness at the empty word payload followed by a well-formed word:
the run aborts and the following word is never processed. -/
theorem c8_witness :
    ((emptyWord.get "Word").bind Json.as_str = none ∨
     (emptyWord.get "Offset").bind Json.as_f64 = none ∨
     (emptyWord.get "Duration").bind Json.as_f64 = none) ∧
    (processWord [] emptyWord = .error () ∧
     runWords [] [emptyWord, helloWord] = .error ()) :=
  ⟨Or.inl rfl, c8_missing_field_fatal [] emptyWord [helloWord] (Or.inl rfl)⟩

/-- C9: startup with any of the four required environment variables unset
is fatal before any cloud-client configuration, recognition start, or
output-file creation appears in the startup trace. -/
theorem c9_missing_env_fatal_early (env : String → Option String) (v : String)
    (hv : v ∈ requiredEnvVars) (h : env v = none) :
    StartupAction.cloudConfig ∉ startupTrace env ∧
    StartupAction.startRecognition ∉ startupTrace env ∧
    StartupAction.createOutputFile ∉ startupTrace env ∧
    ∃ msg, StartupAction.fatal msg ∈ startupTrace env :=
  startup_missing env v hv h

/-- C9 witness at the empty environment and AZURE_SPEECH_KEY. -/
theorem c9_witness :
    "AZURE_SPEECH_KEY" ∈ requiredEnvVars ∧
    ((fun _ => none : String → Option String) "AZURE_SPEECH_KEY" = none) ∧
    (StartupAction.cloudConfig ∉ startupTrace (fun _ => none) ∧
     StartupAction.startRecognition ∉ startupTrace (fun _ => none) ∧
     StartupAction.createOutputFile ∉ startupTrace (fun _ => none) ∧
     ∃ msg, StartupAction.fatal msg ∈ startupTrace (fun _ => none)) :=
  ⟨by simp [requiredEnvVars], rfl,
   c9_missing_env_fatal_early (fun _ => none) "AZURE_SPEECH_KEY"
     (by simp [requiredEnvVars]) rfl⟩

/-- C10: any buffer and registry the aggregator produces render without
any failing registry lookup: rendering the collected transcript with the
final registry succeeds outright (reproducing the aggregation lines). -/
theorem c10_renderer_lookup_total (events : List RecEvent) (st : AggState)
    (lines : List String)
    (h : runAggregator initialState events = .ok (st, lines)) :
    render st.speakers st.transcript_data = .ok lines := by
  obtain ⟨hext, new, htd, hr⟩ := runAggregator_ok h
  have hrn := hr st.speakers SpeakersExt.rfl
  rw [htd]
  simpa [initialState] using hrn

/-- C10 witness at the single hello event. -/
theorem c10_witness :
    runAggregator initialState [helloEvent] =
      .ok (⟨[helloPayload], [("g1", "Speaker 1")]⟩,
           [bulletLine "Speaker 1" (startTimeOf 0) (endTimeOf 0 10000000) "hello"]) ∧
    render [("g1", "Speaker 1")] [helloPayload] =
      .ok [bulletLine "Speaker 1" (startTimeOf 0) (endTimeOf 0 10000000) "hello"] :=
  ⟨rfl,
   c10_renderer_lookup_total [helloEvent]
     ⟨[helloPayload], [("g1", "Speaker 1")]⟩
     [bulletLine "Speaker 1" (startTimeOf 0) (endTimeOf 0 10000000) "hello"] rfl⟩

end TranscribeWav
